import Mathlib

/-!
Verification of the core logic of the move-fireblocks-sdk repository.

The development shallowly embeds the pool manager (`SdkManager`), the custody
status-polling loop (`getTxStatus`), the signing-payload derivation
(`serializeTransaction`, including a concrete SHA3-256), the transaction
pipeline (`createTransaction`, `checkSignature`) and the account-level SDK
methods (`MovementFireblocksSDK`).  JavaScript `Map`s become association lists
with unique keys, `Date` timestamps become natural numbers, and the external
collaborators (Fireblocks custody API and the Movement ledger client) become
explicit oracle parameters.
-/

namespace MoveFireblocks

/-! ## Resource pool (`src/pool/SdkManager.ts`)

A pool entry `SdkPoolItem` holds the SDK instance (modelled by an opaque
numeric identity), its `lastUsed` timestamp and the `isInUse` flag.  The pool
itself is a JavaScript `Map<string, SdkPoolItem>`: an association list in
insertion order with unique keys. -/

structure SdkPoolItem where
  sdk : Nat
  lastUsed : Nat
  isInUse : Bool
deriving DecidableEq, Repr

structure PoolConfig where
  maxPoolSize : Nat
  idleTimeoutMs : Nat
  cleanupIntervalMs : Nat
deriving DecidableEq, Repr

abbrev Pool := List (String × SdkPoolItem)

inductive PoolError where
  | poolCapacity
deriving DecidableEq, Repr

/-- The `Map.get`: first entry with the given key (keys are unique). -/
def mapGet : Pool → String → Option SdkPoolItem
  | [], _ => none
  | kv :: rest, k => if kv.1 = k then some kv.2 else mapGet rest k

/-- In-place mutation of the entry stored under key `k` (the JS code mutates
the `SdkPoolItem` object fields through the reference returned by `get`). -/
def mapUpdate (pool : Pool) (k : String) (v : SdkPoolItem) : Pool :=
  pool.map (fun kv => if kv.1 = k then (kv.1, v) else kv)

/-- The `Map.set`: update in place when the key exists, append otherwise. -/
def mapSet (pool : Pool) (k : String) (v : SdkPoolItem) : Pool :=
  if (mapGet pool k).isSome then mapUpdate pool k v else pool ++ [(k, v)]

/-- The `Map.delete`: drop the entry with the given key. -/
def mapDelete (pool : Pool) (k : String) : Pool :=
  pool.filter (fun kv => kv.1 != k)

/-- One step of the `for (const [key, value] of this.sdkPool.entries())` scan of
`removeOldestIdleSdk`: remember the entry when it is idle and strictly older
than the current candidate `oldestDate`. -/
def oldestStep (acc : Option String × Nat) (kv : String × SdkPoolItem) :
    Option String × Nat :=
  if kv.2.isInUse = false ∧ kv.2.lastUsed < acc.2 then (some kv.1, kv.2.lastUsed) else acc

/-- The `SdkManager.removeOldestIdleSdk`: scan starting from
`oldestKey = null, oldestDate = new Date()` (the current time), then delete the
found key.  `if (oldestKey)` is JavaScript truthiness, so a `null` key and an
empty-string key alike lead to `return false` with no deletion. -/
def removeOldestIdleSdk (pool : Pool) (now : Nat) : Option String × Pool :=
  match (pool.foldl oldestStep (none, now)).1 with
  | some k => if k = "" then (none, pool) else (some k, mapDelete pool k)
  | none => (none, pool)

/-- The `SdkManager.getSdk`.  The state-passing result is
`(thrown-or-returned sdk, final pool)`.  `now` is the value of `new Date()`
during the call and `freshSdk` the identity of the instance that
`createSdkInstance` would build (instance creation itself is external I/O and
assumed to succeed here). -/
def getSdk (cfg : PoolConfig) (pool : Pool) (vaultAccountId : String) (now : Nat)
    (freshSdk : Nat) : Except PoolError Nat × Pool :=
  match mapGet pool vaultAccountId with
  | some poolItem =>
    -- both the idle fast path and the in-use fall-through set
    -- `lastUsed = new Date(); isInUse = true` and return the stored sdk
    (.ok poolItem.sdk, mapUpdate pool vaultAccountId
      { poolItem with lastUsed := now, isInUse := true })
  | none =>
    if cfg.maxPoolSize ≤ pool.length then
      match removeOldestIdleSdk pool now with
      | (none, p) => (.error .poolCapacity, p)
      | (some _, p) => (.ok freshSdk, mapSet p vaultAccountId ⟨freshSdk, now, true⟩)
    else
      (.ok freshSdk, mapSet pool vaultAccountId ⟨freshSdk, now, true⟩)

/-- The filter used by `cleanupIdleSdks` to collect `keysToRemove`: idle and
`now.getTime() - lastUsed.getTime() > idleTimeoutMs` (JS numbers can go
negative, hence the `Int` subtraction). -/
def isExpiredIdle (cfg : PoolConfig) (now : Nat) (kv : String × SdkPoolItem) : Bool :=
  !kv.2.isInUse && decide ((now : Int) - (kv.2.lastUsed : Int) > (cfg.idleTimeoutMs : Int))

/-- The `SdkManager.cleanupIdleSdks`: collect the expired idle keys, then delete
each of them from the pool. -/
def cleanupIdleSdks (cfg : PoolConfig) (pool : Pool) (now : Nat) : Pool :=
  let keysToRemove := (pool.filter (isExpiredIdle cfg now)).map Prod.fst
  keysToRemove.foldl (fun p k => mapDelete p k) pool

structure SdkManagerMetrics where
  totalInstances : Nat
  activeInstances : Nat
  idleInstances : Nat
  instancesByVaultAccount : List (String × Bool)
deriving DecidableEq, Repr

/-- Loop body of `getMetrics`. -/
def metricsStep (m : SdkManagerMetrics) (kv : String × SdkPoolItem) : SdkManagerMetrics :=
  { m with
    activeInstances := if kv.2.isInUse then m.activeInstances + 1 else m.activeInstances
    idleInstances := if kv.2.isInUse then m.idleInstances else m.idleInstances + 1
    instancesByVaultAccount := m.instancesByVaultAccount ++ [(kv.1, kv.2.isInUse)] }

/-- The `SdkManager.getMetrics`: `totalInstances` is read off `sdkPool.size` before
the loop; the loop then counts active/idle entries and records the per-vault
`isInUse` flags. -/
def getMetrics (pool : Pool) : SdkManagerMetrics :=
  pool.foldl metricsStep
    { totalInstances := pool.length
      activeInstances := 0
      idleInstances := 0
      instancesByVaultAccount := [] }

/-! ### Pool lemmas -/

theorem metricsFold_spec (l : Pool) (m : SdkManagerMetrics) :
    l.foldl metricsStep m =
      { totalInstances := m.totalInstances
        activeInstances := m.activeInstances + (l.filter (fun kv => kv.2.isInUse)).length
        idleInstances := m.idleInstances + (l.filter (fun kv => !kv.2.isInUse)).length
        instancesByVaultAccount :=
          m.instancesByVaultAccount ++ l.map (fun kv => (kv.1, kv.2.isInUse)) } := by
  induction l generalizing m with
  | nil => simp
  | cons kv t ih =>
    simp only [List.foldl_cons, ih, List.filter_cons, List.map_cons]
    rcases h : kv.2.isInUse with _ | _ <;>
      simp [metricsStep, h, Nat.add_assoc, Nat.add_comm 1]

/-- Entries with equal keys coincide in a pool whose keys are unique (the JS
`Map` invariant). -/
theorem pool_key_inj {pool : Pool} (h : (pool.map Prod.fst).Nodup) :
    ∀ kv₁ ∈ pool, ∀ kv₂ ∈ pool, kv₁.1 = kv₂.1 → kv₁ = kv₂ := by
  induction pool with
  | nil => simp
  | cons kv t ih =>
    simp only [List.map_cons, List.nodup_cons] at h
    rintro kv₁ h₁ kv₂ h₂ heq
    rcases List.mem_cons.mp h₁ with h₁ | h₁
    · rcases List.mem_cons.mp h₂ with h₂ | h₂
      · rw [h₁, h₂]
      · exfalso; apply h.1; rw [← h₁, heq]; exact List.mem_map_of_mem Prod.fst h₂
    · rcases List.mem_cons.mp h₂ with h₂ | h₂
      · exfalso; apply h.1; rw [← h₂, ← heq]; exact List.mem_map_of_mem Prod.fst h₁
      · exact ih h.2 kv₁ h₁ kv₂ h₂ heq

theorem foldl_mapDelete (keys : List String) (pool : Pool) :
    keys.foldl (fun p k => mapDelete p k) pool
      = pool.filter (fun kv => !keys.contains kv.1) := by
  induction keys generalizing pool with
  | nil => simp
  | cons k ks ih =>
    rw [List.foldl_cons, ih, mapDelete, List.filter_filter]
    apply List.filter_congr
    intro kv _
    simp only [List.contains_cons, Bool.not_or, bne]
    exact Bool.and_comm _ _

theorem filter_length_split (l : Pool) (p : String × SdkPoolItem → Bool) :
    (l.filter p).length + (l.filter (fun kv => !p kv)).length = l.length := by
  induction l with
  | nil => rfl
  | cons kv t ih =>
    rcases h : p kv with _ | _ <;> simp [List.filter_cons, h, ← ih] <;> omega

/-- A key occurs in the expired-keys list exactly when its (unique) entry is
expired and idle. -/
theorem contains_expired_key (cfg : PoolConfig) (pool : Pool) (now : Nat)
    (hnodup : (pool.map Prod.fst).Nodup) (kv : String × SdkPoolItem) (hkv : kv ∈ pool) :
    ((pool.filter (isExpiredIdle cfg now)).map Prod.fst).contains kv.1
      = isExpiredIdle cfg now kv := by
  rcases hexp : isExpiredIdle cfg now kv with _ | _
  · rw [Bool.eq_false_iff]
    intro hc
    rw [List.elem_iff] at hc
    rcases List.mem_map.mp hc with ⟨kv', hkv', hfst⟩
    rcases List.mem_filter.mp hkv' with ⟨hkv'mem, hkv'exp⟩
    have := pool_key_inj hnodup kv' hkv'mem kv hkv hfst
    rw [this] at hkv'exp
    rw [hexp] at hkv'exp
    exact Bool.false_ne_true hkv'exp
  · rw [List.elem_iff]
    exact List.mem_map_of_mem Prod.fst (List.mem_filter.mpr ⟨hkv, hexp⟩)

/-- C5: the idle sweep removes an entry iff it is idle and
`now - lastUsed > idleTimeoutMs`; it never removes an in-use entry. -/
theorem cleanupIdleSdks_spec (cfg : PoolConfig) (pool : Pool) (now : Nat)
    (hnodup : (pool.map Prod.fst).Nodup) :
    cleanupIdleSdks cfg pool now = pool.filter (fun kv => !isExpiredIdle cfg now kv) ∧
    (∀ kv ∈ pool, kv.2.isInUse = true → kv ∈ cleanupIdleSdks cfg pool now) ∧
    (∀ kv ∈ pool, (kv ∉ cleanupIdleSdks cfg pool now ↔
        kv.2.isInUse = false ∧
          (now : Int) - (kv.2.lastUsed : Int) > (cfg.idleTimeoutMs : Int))) := by
  have hmain : cleanupIdleSdks cfg pool now
      = pool.filter (fun kv => !isExpiredIdle cfg now kv) := by
    simp only [cleanupIdleSdks, foldl_mapDelete]
    exact List.filter_congr fun kv hkv => by
      rw [contains_expired_key cfg pool now hnodup kv hkv]
  refine ⟨hmain, ?_, ?_⟩
  · intro kv hkv hin
    rw [hmain]
    exact List.mem_filter.mpr ⟨hkv, by simp [isExpiredIdle, hin]⟩
  · intro kv hkv
    rw [hmain]
    constructor
    · intro hnotin
      by_cases hexp : isExpiredIdle cfg now kv = true
      · rcases Bool.and_eq_true_iff.mp hexp with ⟨h1, h2⟩
        exact ⟨by simpa using h1, by simpa using h2⟩
      · exact absurd (List.mem_filter.mpr ⟨hkv, by simp [hexp]⟩) hnotin
    · rintro ⟨h1, h2⟩ hmem
      rcases List.mem_filter.mp hmem with ⟨-, hkeep⟩
      simp only [isExpiredIdle, h1, Bool.not_false, Bool.true_and, Bool.not_eq_true',
        decide_eq_false_iff_not] at hkeep
      exact hkeep h2

/-- Witness for C5 at a concrete pool: one stale idle entry, one in-use entry
older than the timeout, one fresh idle entry. -/
theorem cleanupIdleSdks_spec_witness :
    (([(("a" : String), SdkPoolItem.mk 0 10 false), ("b", SdkPoolItem.mk 1 10 true),
        ("c", SdkPoolItem.mk 2 90 false)] : Pool).map Prod.fst).Nodup ∧
    (cleanupIdleSdks ⟨3, 50, 7⟩
        [("a", SdkPoolItem.mk 0 10 false), ("b", SdkPoolItem.mk 1 10 true),
          ("c", SdkPoolItem.mk 2 90 false)] 100
      = [("b", SdkPoolItem.mk 1 10 true), ("c", SdkPoolItem.mk 2 90 false)] ∧
      (∀ kv ∈ ([(("a" : String), SdkPoolItem.mk 0 10 false), ("b", SdkPoolItem.mk 1 10 true),
          ("c", SdkPoolItem.mk 2 90 false)] : Pool), kv.2.isInUse = true →
        kv ∈ cleanupIdleSdks ⟨3, 50, 7⟩
          [("a", SdkPoolItem.mk 0 10 false), ("b", SdkPoolItem.mk 1 10 true),
            ("c", SdkPoolItem.mk 2 90 false)] 100)) :=
  ⟨by decide, by
    have h := cleanupIdleSdks_spec ⟨3, 50, 7⟩
      [("a", SdkPoolItem.mk 0 10 false), ("b", SdkPoolItem.mk 1 10 true),
        ("c", SdkPoolItem.mk 2 90 false)] 100 (by decide)
    exact ⟨by rw [h.1]; decide, h.2.1⟩⟩

/-- C10: `getMetrics` splits the pool size exactly into active and idle counts
and lists every pooled vault account id with its `isInUse` flag.  In this
embedding `getMetrics` is a pure function of the pool, so computing metrics
leaves the pool unchanged by construction. -/
theorem getMetrics_spec (pool : Pool) :
    (getMetrics pool).totalInstances
        = (getMetrics pool).activeInstances + (getMetrics pool).idleInstances ∧
    (getMetrics pool).activeInstances = (pool.filter (fun kv => kv.2.isInUse)).length ∧
    (getMetrics pool).idleInstances = (pool.filter (fun kv => !kv.2.isInUse)).length ∧
    (getMetrics pool).instancesByVaultAccount
        = pool.map (fun kv => (kv.1, kv.2.isInUse)) := by
  have h := metricsFold_spec pool
    { totalInstances := pool.length, activeInstances := 0, idleInstances := 0,
      instancesByVaultAccount := [] }
  rw [getMetrics, h]
  refine ⟨?_, by simp, by simp, by simp⟩
  simpa using (filter_length_split pool (fun kv => kv.2.isInUse)).symm

/-- Characterization of the `removeOldestIdleSdk` scan: the running candidate
date never increases, ends below every idle entry's `lastUsed`, and the scan
either leaves the accumulator untouched or lands on an idle entry whose
`lastUsed` equals the final candidate date and is strictly below the initial
one. -/
theorem oldestScan_spec (l : Pool) (acc : Option String × Nat) :
    (l.foldl oldestStep acc).2 ≤ acc.2 ∧
    (∀ kv ∈ l, kv.2.isInUse = false → (l.foldl oldestStep acc).2 ≤ kv.2.lastUsed) ∧
    (l.foldl oldestStep acc = acc ∨
      ∃ kv ∈ l, (l.foldl oldestStep acc).1 = some kv.1 ∧ kv.2.isInUse = false ∧
        kv.2.lastUsed = (l.foldl oldestStep acc).2 ∧
        (l.foldl oldestStep acc).2 < acc.2) := by
  induction l generalizing acc with
  | nil => simp
  | cons kv t ih =>
    rw [List.foldl_cons]
    rcases ih (oldestStep acc kv) with ⟨ih1, ih2, ih3⟩
    by_cases h : kv.2.isInUse = false ∧ kv.2.lastUsed < acc.2
    · have hstep : oldestStep acc kv = (some kv.1, kv.2.lastUsed) := by
        rw [oldestStep, if_pos h]
      have hsnd : (oldestStep acc kv).2 = kv.2.lastUsed := by rw [hstep]
      refine ⟨le_trans ih1 (hsnd ▸ le_of_lt h.2), ?_, ?_⟩
      · intro kv' hkv' hidle
        rcases List.mem_cons.mp hkv' with hh | hh
        · rw [hh]; exact le_trans ih1 (le_of_eq hsnd)
        · exact ih2 kv' hh hidle
      · rcases ih3 with heq | ⟨kv', hkv', h1, h2, h3, h4⟩
        · right
          refine ⟨kv, List.mem_cons_self _ _, ?_, h.1, ?_, ?_⟩
          · rw [heq, hstep]
          · rw [heq, hstep]
          · rw [heq, hstep]; exact h.2
        · right
          refine ⟨kv', List.mem_cons_of_mem _ hkv', h1, h2, h3, ?_⟩
          exact lt_trans (hsnd ▸ h4) h.2
    · have hstep : oldestStep acc kv = acc := by rw [oldestStep, if_neg h]
      rw [hstep] at ih1 ih2 ih3 ⊢
      refine ⟨ih1, ?_, ?_⟩
      · intro kv' hkv' hidle
        rcases List.mem_cons.mp hkv' with hh | hh
        · have : ¬ kv.2.lastUsed < acc.2 := fun hc => h ⟨hh ▸ hidle, hc⟩
          exact le_trans ih1 (hh ▸ le_of_not_lt this)
        · exact ih2 kv' hh hidle
      · rcases ih3 with heq | ⟨kv', hkv', h1, h2, h3, h4⟩
        · exact Or.inl heq
        · exact Or.inr ⟨kv', List.mem_cons_of_mem _ hkv', h1, h2, h3, h4⟩

theorem mapGet_eq_none_iff (pool : Pool) (k : String) :
    mapGet pool k = none ↔ ∀ kv ∈ pool, kv.1 ≠ k := by
  induction pool with
  | nil => simp [mapGet]
  | cons kv t ih => by_cases h : kv.1 = k <;> simp [mapGet, h, ih]

theorem mapDelete_eq_self (pool : Pool) (k : String) (h : ∀ kv ∈ pool, kv.1 ≠ k) :
    mapDelete pool k = pool :=
  List.filter_eq_self.mpr fun kv hkv => by
    simp only [bne_iff_ne, ne_eq]
    exact h kv hkv

theorem mapDelete_length (pool : Pool) (k : String)
    (hnodup : (pool.map Prod.fst).Nodup) (hmem : ∃ kv ∈ pool, kv.1 = k) :
    (mapDelete pool k).length + 1 = pool.length := by
  induction pool with
  | nil => rcases hmem with ⟨kv, hkv, -⟩; simp at hkv
  | cons kv t ih =>
    simp only [List.map_cons, List.nodup_cons] at hnodup
    by_cases h : kv.1 = k
    · have hrest : mapDelete t k = t := by
        apply mapDelete_eq_self
        intro kv' hkv' hc
        exact hnodup.1 (h ▸ hc ▸ List.mem_map_of_mem Prod.fst hkv')
      have hstep : mapDelete (kv :: t) k = mapDelete t k := by
        simp [mapDelete, List.filter_cons, bne, h]
      rw [hstep, hrest, List.length_cons]
    · rcases hmem with ⟨kv', hkv', hk'⟩
      rcases List.mem_cons.mp hkv' with hh | hh
      · exact absurd (hh ▸ hk') h
      · have htail := ih hnodup.2 ⟨kv', hh, hk'⟩
        have hstep : mapDelete (kv :: t) k = kv :: mapDelete t k := by
          simp [mapDelete, List.filter_cons, bne, h]
        rw [hstep, List.length_cons, List.length_cons]
        omega

theorem mapDelete_length_lt (pool : Pool) (k : String)
    (hmem : ∃ kv ∈ pool, kv.1 = k) :
    (mapDelete pool k).length < pool.length := by
  induction pool with
  | nil => rcases hmem with ⟨kv, hkv, -⟩; simp at hkv
  | cons kv t ih =>
    by_cases h : kv.1 = k
    · have hstep : mapDelete (kv :: t) k = mapDelete t k := by
        simp [mapDelete, List.filter_cons, bne, h]
      rw [hstep, List.length_cons]
      exact Nat.lt_succ_of_le (List.length_filter_le _ _)
    · rcases hmem with ⟨kv', hkv', hk'⟩
      rcases List.mem_cons.mp hkv' with hh | hh
      · exact absurd (hh ▸ hk') h
      · have htail := ih ⟨kv', hh, hk'⟩
        have hstep : mapDelete (kv :: t) k = kv :: mapDelete t k := by
          simp [mapDelete, List.filter_cons, bne, h]
        rw [hstep, List.length_cons, List.length_cons]
        exact Nat.succ_lt_succ htail

theorem mapGet_mapDelete_none (pool : Pool) (k vid : String)
    (h : mapGet pool vid = none) : mapGet (mapDelete pool k) vid = none := by
  rw [mapGet_eq_none_iff] at h ⊢
  intro kv hkv
  exact h kv (List.mem_filter.mp hkv).1

/-- C1 (amended): on a pool holding `maxPoolSize` entries with no entry for the
requested id, `getSdk` evicts an idle entry of globally minimal `lastUsed` and
inserts a fresh in-use entry — provided some idle entry has `lastUsed` strictly
before the current time (the eviction scan starts from `new Date()` and only
considers strictly older entries, and the found-key guard is JS truthiness, so
keys must also be nonempty); if every idle entry has `lastUsed ≥ now` the call
fails with `PoolCapacityError` and leaves the pool unchanged; and in every case
a pool within capacity stays within capacity. -/
theorem getSdk_capacity_spec (cfg : PoolConfig) (pool : Pool) (vid : String)
    (now freshSdk : Nat)
    (hnodup : (pool.map Prod.fst).Nodup)
    (hkeys : ∀ kv ∈ pool, kv.1 ≠ "")
    (hfull : pool.length = cfg.maxPoolSize)
    (habsent : mapGet pool vid = none) :
    ((∃ kv ∈ pool, kv.2.isInUse = false ∧ kv.2.lastUsed < now) →
      ∃ kv ∈ pool, kv.2.isInUse = false ∧ kv.2.lastUsed < now ∧
        (∀ kv' ∈ pool, kv'.2.isInUse = false → kv.2.lastUsed ≤ kv'.2.lastUsed) ∧
        getSdk cfg pool vid now freshSdk
          = (.ok freshSdk, mapDelete pool kv.1 ++ [(vid, SdkPoolItem.mk freshSdk now true)]) ∧
        (mapDelete pool kv.1 ++ [(vid, SdkPoolItem.mk freshSdk now true)]).length
          = cfg.maxPoolSize) ∧
    ((∀ kv ∈ pool, kv.2.isInUse = false → now ≤ kv.2.lastUsed) →
      getSdk cfg pool vid now freshSdk = (.error .poolCapacity, pool)) ∧
    (∀ pool₂ : Pool, pool₂.length ≤ cfg.maxPoolSize →
      ((getSdk cfg pool₂ vid now freshSdk).2).length ≤ cfg.maxPoolSize) := by
  have hge : cfg.maxPoolSize ≤ pool.length := le_of_eq hfull.symm
  refine ⟨?_, ?_, ?_⟩
  · intro hexists
    rcases oldestScan_spec pool (none, now) with ⟨hle, hmin, hcase⟩
    rcases hexists with ⟨kv₀, hkv₀, hidle₀, hlt₀⟩
    have hlt : (pool.foldl oldestStep (none, now)).2 < now :=
      lt_of_le_of_lt (hmin kv₀ hkv₀ hidle₀) hlt₀
    rcases hcase with heq | ⟨kv, hkvmem, hr1, hidle, hlast, -⟩
    · rw [heq] at hlt; exact absurd hlt (lt_irrefl now)
    · have hkne : kv.1 ≠ "" := hkeys kv hkvmem
      have hremove : removeOldestIdleSdk pool now = (some kv.1, mapDelete pool kv.1) := by
        rw [removeOldestIdleSdk, hr1]
        simp [hkne]
      have happend : mapSet (mapDelete pool kv.1) vid ⟨freshSdk, now, true⟩
          = mapDelete pool kv.1 ++ [(vid, SdkPoolItem.mk freshSdk now true)] := by
        simp [mapSet, mapGet_mapDelete_none pool kv.1 vid habsent]
      have hdlen := mapDelete_length pool kv.1 hnodup ⟨kv, hkvmem, rfl⟩
      refine ⟨kv, hkvmem, hidle, ?_, ?_, ?_, ?_⟩
      · rw [hlast]; exact hlt
      · intro kv' h' hidle'
        rw [hlast]; exact hmin kv' h' hidle'
      · simp only [getSdk, habsent, if_pos hge, hremove, happend]
      · rw [List.length_append]
        simp only [List.length_singleton]
        omega
  · intro hnone
    rcases oldestScan_spec pool (none, now) with ⟨hle, hmin, hcase⟩
    have hr1 : (pool.foldl oldestStep (none, now)).1 = none := by
      rcases hcase with heq | ⟨kv, hkvmem, h1, h2, h3, h4⟩
      · rw [heq]
      · exact absurd (lt_of_le_of_lt (h3 ▸ hnone kv hkvmem h2) h4) (lt_irrefl _)
    have hremove : removeOldestIdleSdk pool now = (none, pool) := by
      rw [removeOldestIdleSdk, hr1]
    simp only [getSdk, habsent, if_pos hge, hremove]
  · intro pool₂ hlen
    rcases hget : mapGet pool₂ vid with _ | item
    · by_cases hcap : cfg.maxPoolSize ≤ pool₂.length
      · rcases hscan : (pool₂.foldl oldestStep (none, now)).1 with _ | k
        · have hremove : removeOldestIdleSdk pool₂ now = (none, pool₂) := by
            rw [removeOldestIdleSdk, hscan]
          simpa only [getSdk, hget, if_pos hcap, hremove] using hlen
        · by_cases hke : k = ""
          · have hremove : removeOldestIdleSdk pool₂ now = (none, pool₂) := by
              rw [removeOldestIdleSdk, hscan]
              simp [hke]
            simpa only [getSdk, hget, if_pos hcap, hremove] using hlen
          · have hremove : removeOldestIdleSdk pool₂ now
                = (some k, mapDelete pool₂ k) := by
              rw [removeOldestIdleSdk, hscan]
              simp [hke]
            have hmem : ∃ kv ∈ pool₂, kv.1 = k := by
              rcases (oldestScan_spec pool₂ (none, now)).2.2 with heq | ⟨kv, hkv, h1, -, -, -⟩
              · rw [heq] at hscan; simp at hscan
              · rw [hscan] at h1
                exact ⟨kv, hkv, (Option.some_inj.mp h1).symm⟩
            have hdel := mapDelete_length_lt pool₂ k hmem
            have happend : mapSet (mapDelete pool₂ k) vid ⟨freshSdk, now, true⟩
                = mapDelete pool₂ k ++ [(vid, SdkPoolItem.mk freshSdk now true)] := by
              simp [mapSet, mapGet_mapDelete_none pool₂ k vid hget]
            simp only [getSdk, hget, if_pos hcap, hremove, happend]
            rw [List.length_append]
            simp only [List.length_singleton]
            omega
      · have happend : mapSet pool₂ vid ⟨freshSdk, now, true⟩
            = pool₂ ++ [(vid, SdkPoolItem.mk freshSdk now true)] := by
          simp [mapSet, hget]
        simp only [getSdk, hget, if_neg hcap, happend]
        rw [List.length_append]
        simp only [List.length_singleton]
        omega
    · simp only [getSdk, hget, mapUpdate]
      simpa using hlen

/-- C1 counterexample to the claim as stated: a full pool that does contain an
idle entry, yet `getSdk` for a fresh id fails with `PoolCapacityError` and
deletes nothing, because the idle entry's `lastUsed` equals the current time
(`removeOldestIdleSdk` only considers entries strictly older than the
`new Date()` it starts from). -/
theorem getSdk_capacity_counterexample :
    (∃ kv ∈ ([(("a" : String), SdkPoolItem.mk 0 5 false)] : Pool), kv.2.isInUse = false) ∧
    ([(("a" : String), SdkPoolItem.mk 0 5 false)] : Pool).length = (1 : Nat) ∧
    mapGet [(("a" : String), SdkPoolItem.mk 0 5 false)] "b" = none ∧
    getSdk ⟨1, 100, 100⟩ [(("a" : String), SdkPoolItem.mk 0 5 false)] "b" 5 7
      = (.error .poolCapacity, [(("a" : String), SdkPoolItem.mk 0 5 false)]) := by
  refine ⟨⟨("a", SdkPoolItem.mk 0 5 false), by decide, by decide⟩, by decide, by decide, ?_⟩
  rfl

/-- Witness for C1 (amended) at a concrete full pool with a genuinely older
idle entry. -/
theorem getSdk_capacity_spec_witness :
    ((([(("a" : String), SdkPoolItem.mk 0 5 false), ("b", SdkPoolItem.mk 1 9 true)] : Pool).map
        Prod.fst).Nodup ∧
      (∀ kv ∈ ([(("a" : String), SdkPoolItem.mk 0 5 false),
          ("b", SdkPoolItem.mk 1 9 true)] : Pool), kv.1 ≠ "") ∧
      ([(("a" : String), SdkPoolItem.mk 0 5 false), ("b", SdkPoolItem.mk 1 9 true)] : Pool).length
        = (2 : Nat) ∧
      mapGet [(("a" : String), SdkPoolItem.mk 0 5 false), ("b", SdkPoolItem.mk 1 9 true)] "c"
        = none) ∧
    ((∃ kv ∈ ([(("a" : String), SdkPoolItem.mk 0 5 false),
          ("b", SdkPoolItem.mk 1 9 true)] : Pool), kv.2.isInUse = false ∧ kv.2.lastUsed < 10) →
      ∃ kv ∈ ([(("a" : String), SdkPoolItem.mk 0 5 false),
          ("b", SdkPoolItem.mk 1 9 true)] : Pool), kv.2.isInUse = false ∧ kv.2.lastUsed < 10 ∧
        (∀ kv' ∈ ([(("a" : String), SdkPoolItem.mk 0 5 false),
            ("b", SdkPoolItem.mk 1 9 true)] : Pool), kv'.2.isInUse = false →
          kv.2.lastUsed ≤ kv'.2.lastUsed) ∧
        getSdk ⟨2, 100, 100⟩
            [("a", SdkPoolItem.mk 0 5 false), ("b", SdkPoolItem.mk 1 9 true)] "c" 10 7
          = (.ok 7, mapDelete [("a", SdkPoolItem.mk 0 5 false), ("b", SdkPoolItem.mk 1 9 true)]
              kv.1 ++ [("c", SdkPoolItem.mk 7 10 true)]) ∧
        (mapDelete [("a", SdkPoolItem.mk 0 5 false), ("b", SdkPoolItem.mk 1 9 true)] kv.1
          ++ [("c", SdkPoolItem.mk 7 10 true)]).length = (2 : Nat)) :=
  ⟨⟨by decide, by decide, by decide, by decide⟩,
    (getSdk_capacity_spec ⟨2, 100, 100⟩
      [("a", SdkPoolItem.mk 0 5 false), ("b", SdkPoolItem.mk 1 9 true)] "c" 10 7
      (by decide) (by decide) (by decide) (by decide)).1⟩

/-! ## Custody status polling (`getTxStatus` in `src/utils/fireblocks.utils.ts`)

The loop is modelled over the sequence of statuses that successive
`fireblocks.transactions.getTransaction` calls return.  The code fetches once,
then loops `while (tx.status !== Completed)`: sleep, fetch again, and abort on
`Blocked/Cancelled/Failed/Rejected`; note that the failure `switch` only runs
on statuses obtained by the re-fetch inside the loop, never on the initial
one. -/

inductive TransactionStateEnum where
  | submitted
  | queued
  | pendingSignature
  | pendingAuthorization
  | broadcasting
  | completed
  | blocked
  | cancelled
  | failed
  | rejected
deriving DecidableEq, Repr

/-- The four statuses of the failure `switch` in `getTxStatus`. -/
def isFailureStatus (s : TransactionStateEnum) : Bool :=
  match s with
  | .blocked | .cancelled | .failed | .rejected => true
  | _ => false

/-- Terminal statuses per the spec: `Completed` plus the four failures. -/
def isTerminal (s : TransactionStateEnum) : Bool :=
  (s == .completed) || isFailureStatus s

inductive PollOutcome where
  | completed (statusCalls : Nat)
  | failedStatus (s : TransactionStateEnum) (statusCalls : Nat)
  | stillPolling (statusCalls : Nat)
deriving DecidableEq, Repr

/-- The polling loop of `getTxStatus`: `t` is the most recently observed
status, the list holds the statuses later calls would return, `calls` counts
the `getTransaction` calls made so far.  `stillPolling` marks exhaustion of the
supplied sequence with the loop still running. -/
def pollLoop : TransactionStateEnum → List TransactionStateEnum → Nat → PollOutcome
  | t, [], calls => if t = .completed then .completed calls else .stillPolling calls
  | t, s :: rest, calls =>
    if t = .completed then .completed calls
    else if isFailureStatus s then .failedStatus s (calls + 1)
    else pollLoop s rest (calls + 1)

/-- The `getTxStatus`: one initial `getTransaction` call, then the loop. -/
def getTxStatus : List TransactionStateEnum → Option PollOutcome
  | [] => none
  | t :: rest => some (pollLoop t rest 1)

theorem terminal_not_failure_eq_completed (s : TransactionStateEnum)
    (hs : isTerminal s = true) (hf : isFailureStatus s = false) : s = .completed := by
  revert hs hf; cases s <;> decide

theorem not_terminal_facts (x : TransactionStateEnum) (hx : isTerminal x = false) :
    isFailureStatus x = false ∧ x ≠ .completed := by
  revert hx; cases x <;> decide

theorem pollLoop_terminal (t0 s : TransactionStateEnum)
    (mid tail : List TransactionStateEnum) (calls : Nat)
    (h0 : t0 ≠ .completed) (hmid : ∀ x ∈ mid, isTerminal x = false)
    (hs : isTerminal s = true) :
    pollLoop t0 (mid ++ s :: tail) calls
      = if isFailureStatus s then .failedStatus s (calls + mid.length + 1)
        else .completed (calls + mid.length + 1) := by
  induction mid generalizing t0 calls with
  | nil =>
    rw [List.nil_append]
    rcases hf : isFailureStatus s with _ | _
    · have hsc : s = .completed := terminal_not_failure_eq_completed s hs hf
      subst hsc
      cases tail <;> simp [pollLoop, h0, hf]
    · simp [pollLoop, h0, hf]
  | cons x mid' ih =>
    rcases not_terminal_facts x (hmid x (List.mem_cons_self _ _)) with ⟨hxf, hxc⟩
    have hmid' : ∀ y ∈ mid', isTerminal y = false :=
      fun y hy => hmid y (List.mem_cons_of_mem _ hy)
    rw [List.cons_append]
    show pollLoop t0 (x :: (mid' ++ s :: tail)) calls = _
    rw [pollLoop, if_neg h0, hxf]
    simp only [Bool.false_eq_true, if_false]
    rw [ih x (calls + 1) hxc hmid']
    have harith : calls + 1 + mid'.length + 1 = calls + (x :: mid').length + 1 := by
      simp [List.length_cons]; omega
    rw [harith]

/-- C2 (amended): if the very first status returned is `Completed` the loop
stops after exactly one status call and yields the transaction; otherwise the
loop keeps polling and stops at the first terminal status obtained by a
re-poll (from the second call onward): `Completed` yields the transaction and
any of `Blocked/Cancelled/Failed/Rejected` raises an error naming that status,
in both cases after exactly `mid.length + 2` status calls, independently of
whatever statuses would follow (`tail` is never requested).  A terminal
failure observed on the very first call does not stop the loop (see the
counterexample). -/
theorem getTxStatus_spec (rest mid tail : List TransactionStateEnum)
    (t0 s : TransactionStateEnum)
    (h0 : t0 ≠ .completed) (hmid : ∀ x ∈ mid, isTerminal x = false)
    (hs : isTerminal s = true) :
    getTxStatus (.completed :: rest) = some (.completed 1) ∧
    getTxStatus (t0 :: (mid ++ s :: tail))
      = some (if isFailureStatus s then .failedStatus s (mid.length + 2)
          else .completed (mid.length + 2)) := by
  constructor
  · cases rest <;> simp [getTxStatus, pollLoop]
  · show some (pollLoop t0 (mid ++ s :: tail) 1) = _
    rw [pollLoop_terminal t0 s mid tail 1 h0 hmid hs]
    have harith : 1 + mid.length + 1 = mid.length + 2 := by omega
    rw [harith]

/-- C2 counterexample to the claim as stated: the first observed status is the
terminal failure `Failed`, yet the loop issues a second status call, and since
that second call returns `Completed` the function even returns success instead
of raising an error naming `Failed`. -/
theorem getTxStatus_counterexample :
    isTerminal .failed = true ∧
    getTxStatus [.failed, .completed] = some (.completed 2) := by
  exact ⟨rfl, rfl⟩

/-- Witness for C2 (amended): status sequence
`[PendingSignature, PendingSignature, Rejected, Completed]` makes exactly three
status calls and raises the error naming `Rejected`. -/
theorem getTxStatus_spec_witness :
    (((.pendingSignature : TransactionStateEnum) ≠ .completed) ∧
      (∀ x ∈ ([.pendingSignature] : List TransactionStateEnum), isTerminal x = false) ∧
      isTerminal .rejected = true) ∧
    (getTxStatus [.completed] = some (.completed 1) ∧
      getTxStatus (.pendingSignature :: ([.pendingSignature] ++ .rejected :: [.completed]))
        = some (if isFailureStatus .rejected then
              .failedStatus .rejected (([.pendingSignature] : List TransactionStateEnum).length + 2)
            else .completed (([.pendingSignature] : List TransactionStateEnum).length + 2))) :=
  ⟨⟨by decide, by decide, by decide⟩,
    getTxStatus_spec [] [.pendingSignature] [.completed] .pendingSignature .rejected
      (by decide) (by decide) (by decide)⟩

/-! ## SHA3-256 (the `js-sha3` dependency used by `movement.utils.ts`)

A direct implementation of FIPS-202 SHA3-256 over byte lists, used to embed
`sha3_256(signingMessagePrefix)` concretely.  Lanes are 64-bit words stored as
`Nat` reduced mod `2^64`; the state is a function on the 5×5 lane grid. -/

def w64 : Nat := 18446744073709551616

def rotl64 (x n : Nat) : Nat := ((x <<< n) ||| (x >>> (64 - n))) % w64

/-- The Keccak state: 25 lanes of 64 bits, lane `(x, y)` at index `x + 5*y`. -/
def KeccakSt : Type := List Nat

def lane (A : KeccakSt) (x y : Nat) : Nat := A.getD (x % 5 + 5 * (y % 5)) 0

def theta (A : KeccakSt) : KeccakSt :=
  let C : List Nat := (List.range 5).map (fun x =>
    lane A x 0 ^^^ lane A x 1 ^^^ lane A x 2 ^^^ lane A x 3 ^^^ lane A x 4)
  let D : List Nat := (List.range 5).map (fun x =>
    C.getD ((x + 4) % 5) 0 ^^^ rotl64 (C.getD ((x + 1) % 5) 0) 1)
  (List.range 25).map (fun i => A.getD i 0 ^^^ D.getD (i % 5) 0)

def rotTable : List (List Nat) :=
  [[0, 36, 3, 41, 18],
   [1, 44, 10, 45, 2],
   [62, 6, 43, 15, 61],
   [28, 55, 25, 21, 56],
   [27, 20, 39, 8, 14]]

def rotOff (x y : Nat) : Nat := (rotTable.getD (x % 5) []).getD (y % 5) 0

def rhoPi (A : KeccakSt) : KeccakSt :=
  (List.range 25).map (fun i =>
    let x := i % 5
    let y := i / 5
    rotl64 (lane A (x + 3 * y) x) (rotOff (x + 3 * y) x))

def chi (A : KeccakSt) : KeccakSt :=
  (List.range 25).map (fun i =>
    let x := i % 5
    let y := i / 5
    lane A x y ^^^ ((lane A (x + 1) y ^^^ (w64 - 1)) &&& lane A (x + 2) y))

def keccakRC : List Nat :=
  [1,
   32898,
   9223372036854808714,
   9223372039002292224,
   32907,
   2147483649,
   9223372039002292353,
   9223372036854808585,
   138,
   136,
   2147516425,
   2147483658,
   2147516555,
   9223372036854775947,
   9223372036854808713,
   9223372036854808579,
   9223372036854808578,
   9223372036854775936,
   32778,
   9223372039002259466,
   9223372039002292353,
   9223372036854808704,
   2147483649,
   9223372039002292232]

def keccakRound (A : KeccakSt) (rc : Nat) : KeccakSt :=
  match chi (rhoPi (theta A)) with
  | [] => []
  | a0 :: rest => (a0 ^^^ rc) :: rest

def keccakP (A : KeccakSt) : KeccakSt := keccakRC.foldl keccakRound A

def leBytesToNat : List Nat → Nat
  | [] => 0
  | b :: rest => b + 256 * leBytesToNat rest

def laneOfBlock (block : List Nat) (i : Nat) : Nat :=
  leBytesToNat ((block.drop (8 * i)).take 8)

def absorbBlock (A : KeccakSt) (block : List Nat) : KeccakSt :=
  keccakP ((List.range 25).map (fun i =>
    if i < 17 then A.getD i 0 ^^^ laneOfBlock block i else A.getD i 0))

/-- SHA3 multi-rate padding with domain suffix `0x06` and final bit `0x80`. -/
def sha3Pad (rate : Nat) (m : List Nat) : List Nat :=
  let padLen := rate - m.length % rate
  if padLen = 1 then m ++ [0x86]
  else m ++ [0x06] ++ List.replicate (padLen - 2) 0 ++ [0x80]

def chunksOf : Nat → List Nat → List (List Nat)
  | _, [] => []
  | 0, _ :: _ => []
  | n + 1, x :: xs => ((x :: xs).take (n + 1)) :: chunksOf (n + 1) (xs.drop n)
termination_by _ l => l.length
decreasing_by simp [List.length_drop]; omega

def laneToBytes (w : Nat) : List Nat :=
  [w % 256, (w >>> 8) % 256, (w >>> 16) % 256, (w >>> 24) % 256,
   (w >>> 32) % 256, (w >>> 40) % 256, (w >>> 48) % 256, (w >>> 56) % 256]

def sha3_256 (m : List Nat) : List Nat :=
  let blocks := chunksOf 136 (sha3Pad 136 m)
  let final := blocks.foldl absorbBlock (List.replicate 25 0)
  laneToBytes (final.getD 0 0) ++ laneToBytes (final.getD 1 0)
    ++ laneToBytes (final.getD 2 0) ++ laneToBytes (final.getD 3 0)

def strToBytes (s : String) : List Nat := s.data.map Char.toNat

theorem sha3_256_length (m : List Nat) : (sha3_256 m).length = 32 := by
  simp [sha3_256, laneToBytes]

/-! ## Signing-payload derivation (`src/utils/movement.utils.ts`) -/

/-- The `signingMessagePrefix` from `src/constants.ts`. -/
def signingMessagePrefixStr : String := "APTOS::RawTransaction"

/-- A built `SimpleTransaction`, represented by the canonical BCS serialization
`transaction.rawTransaction.bcsToBytes()` the Aptos SDK produces for it. -/
structure SimpleTransaction where
  rawTransactionBcsBytes : List Nat
deriving DecidableEq, Repr

/-- The `Uint8Array.set(src, offset)` on an array viewed as a byte list. -/
def uint8ArraySet (arr src : List Nat) (offset : Nat) : List Nat :=
  arr.take offset ++ src ++ arr.drop (offset + src.length)

/-- The `serializeTransaction`: allocate `prefix.length + bcsBytes.length` zero
bytes, write the SHA3-256 digest of the signing-domain constant at offset 0
and the BCS bytes right after it.  (`js-sha3` returns the digest as hex and
the code converts back through `Buffer.from(hex, "hex")`; byte-for-byte that
composition is the digest itself.) -/
def serializeTransaction (transaction : SimpleTransaction) : List Nat :=
  let bcsBytes := transaction.rawTransactionBcsBytes
  let prefixBytes := sha3_256 (strToBytes signingMessagePrefixStr)
  let signingMessage := List.replicate (prefixBytes.length + bcsBytes.length) 0
  uint8ArraySet (uint8ArraySet signingMessage prefixBytes 0) bcsBytes prefixBytes.length

theorem uint8ArraySet_exact (arr src1 src2 : List Nat)
    (h : arr.length = src1.length + src2.length) :
    uint8ArraySet (uint8ArraySet arr src1 0) src2 src1.length = src1 ++ src2 := by
  unfold uint8ArraySet
  simp only [List.take_zero, List.nil_append, Nat.zero_add]
  have hlen : (src1 ++ arr.drop src1.length).length = src1.length + src2.length := by
    simp only [List.length_append, List.length_drop, h]
    omega
  rw [List.take_left, List.drop_eq_nil_of_le (le_of_eq hlen), List.append_nil]

/-- C4: the signing payload equals the 32-byte SHA3-256 digest of the constant
"APTOS::RawTransaction" followed by the transaction's BCS serialization, and
the derivation is pure: a transaction with the same BCS bytes yields the
byte-identical payload. -/
theorem serializeTransaction_spec (transaction : SimpleTransaction) :
    serializeTransaction transaction
      = sha3_256 (strToBytes signingMessagePrefixStr)
          ++ transaction.rawTransactionBcsBytes ∧
    (sha3_256 (strToBytes signingMessagePrefixStr)).length = 32 ∧
    (serializeTransaction transaction).length
      = 32 + transaction.rawTransactionBcsBytes.length ∧
    (∀ tx₂ : SimpleTransaction,
      tx₂.rawTransactionBcsBytes = transaction.rawTransactionBcsBytes →
      serializeTransaction tx₂ = serializeTransaction transaction) := by
  have h32 := sha3_256_length (strToBytes signingMessagePrefixStr)
  have hmain : ∀ tx : SimpleTransaction, serializeTransaction tx
      = sha3_256 (strToBytes signingMessagePrefixStr) ++ tx.rawTransactionBcsBytes := by
    intro tx
    simp only [serializeTransaction]
    exact uint8ArraySet_exact _ _ _ (by rw [List.length_replicate])
  refine ⟨hmain transaction, h32, ?_, ?_⟩
  · rw [hmain transaction, List.length_append, h32]
  · intro tx₂ heq
    rw [hmain tx₂, hmain transaction, heq]

/-- Witness for C4 at a concrete transaction. -/
theorem serializeTransaction_spec_witness :
    (SimpleTransaction.mk [1, 2, 3]).rawTransactionBcsBytes
        = (SimpleTransaction.mk [1, 2, 3]).rawTransactionBcsBytes ∧
    serializeTransaction (SimpleTransaction.mk [1, 2, 3])
        = serializeTransaction (SimpleTransaction.mk [1, 2, 3]) :=
  ⟨rfl, (serializeTransaction_spec (SimpleTransaction.mk [1, 2, 3])).2.2.2
      (SimpleTransaction.mk [1, 2, 3]) rfl⟩

/-! ## Transaction pipeline (`createTransaction` in `src/utils/movement.utils.ts`,
`checkSignature` in `src/utils/fireblocks.utils.ts`) -/

/-- The `SignedMessageSignature` as used by the pipeline: `fullSig` is the hex
signature string, modelled by its decoded bytes; `none` is an `undefined`
field and the empty list plays the role of the falsy empty string. -/
structure SignedMessageSignature where
  fullSig : Option (List Nat)
deriving DecidableEq, Repr

inductive PipelineError where
  | addressNotSet              -- "Movement address is not set."
  | noSignature                -- "No signature returned from rawSign()"
  | invalidSignatureLength     -- "Invalid signature length — must be 64 bytes for Ed25519."
  | publicKeyNotSet            -- "Movement public key is not set and is needed ..."
  | createFailed (cause : PipelineError)  -- catch-all wrapper "Failed to create move transaction: ..."
deriving DecidableEq, Repr

/-- The `checkSignature`: reject a missing/falsy `fullSig`, decode, and insist on
exactly 64 bytes. -/
def checkSignature (rawSignature : Option SignedMessageSignature) :
    Except PipelineError (List Nat) :=
  match rawSignature with
  | none => .error .noSignature
  | some s =>
    match s.fullSig with
    | none => .error .noSignature
    | some signatureBytes =>
      if signatureBytes.isEmpty then .error .noSignature
      else if signatureBytes.length ≠ 64 then .error .invalidSignatureLength
      else .ok signatureBytes

/-- The `createMoveTransactionConstants` from `src/constants.ts`. -/
structure MoveTransactionConstants where
  function : String
deriving DecidableEq, Repr

def createMoveTransactionConstants : MoveTransactionConstants :=
  { function := "0x1::aptos_account::transfer" }

/-- The `createTokenTransactionConstants` from `src/constants.ts`. -/
structure TokenTransactionConstants where
  function : String
  typeArguments : List String
deriving DecidableEq, Repr

def createTokenTransactionConstants : TokenTransactionConstants :=
  { function := "0x1::primary_fungible_store::transfer"
    typeArguments := ["0x1::fungible_asset::Metadata"] }

/-- A move-function argument as it appears in `functionArguments` (strings,
numbers, or the `undefined` that an absent `tokenAsset` would inject). -/
inductive FnArg where
  | str (s : String)
  | num (n : Nat)
  | undefinedArg
deriving DecidableEq, Repr

structure InputEntryFunctionData where
  function : String
  typeArguments : List String
  functionArguments : List FnArg
deriving DecidableEq, Repr

structure InputGenerateTransactionOptions where
  maxGasAmount : Option Nat
  gasUnitPrice : Option Nat
  expireTimestamp : Option Nat
  accountSequenceNumber : Option Nat
deriving DecidableEq, Repr

/-- The `CreateTransactionArguments` (`src/services/types.ts`).  Optional fields
are `Option`; `tokenTransfer?: boolean` keeps its three JS states. -/
structure CreateTransactionArguments where
  movementAddress : String
  movementPublicKey : String
  vaultAccountId : String
  recipientAddress : String
  amount : Nat
  maxGasAmount : Option Nat
  gasUnitPrice : Option Nat
  expireTimestamp : Option Nat
  accountSequenceNumber : Option Nat
  tokenTransfer : Option Bool
  tokenAsset : Option String
deriving DecidableEq, Repr

/-- JS truthiness of an optional boolean (`undefined` and `false` are falsy). -/
def jsTruthy : Option Bool → Bool
  | some b => b
  | none => false

def optStrArg : Option String → FnArg
  | some s => .str s
  | none => .undefinedArg

/-- The `data: InputEntryFunctionData` object built by `createTransaction`
(lines 100–110): selector, type arguments and function arguments switch as one
on the `tokenTransfer` flag. -/
def mkTxData (args : CreateTransactionArguments) : InputEntryFunctionData :=
  { function :=
      if jsTruthy args.tokenTransfer then createTokenTransactionConstants.function
      else createMoveTransactionConstants.function
    typeArguments :=
      if jsTruthy args.tokenTransfer then createTokenTransactionConstants.typeArguments
      else []
    functionArguments :=
      if jsTruthy args.tokenTransfer then
        [optStrArg args.tokenAsset, .str args.recipientAddress, .num args.amount]
      else [.str args.recipientAddress, .num args.amount] }

/-- The `options` object of `createTransaction` (lines 111–118): spread in the
defined gas fields only, then replace a keyless object by `undefined`. -/
def mkOptions (args : CreateTransactionArguments) :
    Option InputGenerateTransactionOptions :=
  let options : InputGenerateTransactionOptions :=
    { maxGasAmount := args.maxGasAmount
      gasUnitPrice := args.gasUnitPrice
      expireTimestamp := args.expireTimestamp
      accountSequenceNumber := args.accountSequenceNumber }
  if args.maxGasAmount = none ∧ args.gasUnitPrice = none ∧
      args.expireTimestamp = none ∧ args.accountSequenceNumber = none then none
  else some options

structure BuildTransactionArguments where
  sender : String
  data : InputEntryFunctionData
  options : Option InputGenerateTransactionOptions
deriving DecidableEq, Repr

/-- The `AccountAuthenticatorEd25519` built by `createSenderAuthenticator`: the
raw public key combined with the signature bytes. -/
structure AccountAuthenticator where
  publicKey : String
  signature : List Nat
deriving DecidableEq, Repr

/-- The `createSenderAuthenticator` (`movement.utils.ts` lines 55–76). -/
def createSenderAuthenticator (rawPubKey : String) (signatureBytes : List Nat) :
    AccountAuthenticator :=
  { publicKey := rawPubKey, signature := signatureBytes }

structure PendingTransactionResponse where
  hash : String
deriving DecidableEq, Repr

/-- The external collaborators of the pipeline, as oracles: the Movement
ledger client's build/submit/wait and the Fireblocks raw-sign round trip
(committed responses are opaque). -/
structure MovementEnv where
  buildTransaction : BuildTransactionArguments → SimpleTransaction
  rawSignTransaction : List Nat → String → Option SignedMessageSignature
  submitTransaction : SimpleTransaction → AccountAuthenticator → PendingTransactionResponse
  waitForTransaction : String → Nat

/-- The observable steps of a pipeline run, in execution order. -/
inductive PipelineStep where
  | build
  | serialize
  | sign
  | checkSig
  | mkAuth
  | submit
  | wait
deriving DecidableEq, Repr

/-- The `createTransaction` (`movement.utils.ts` lines 78–159): build, serialize,
raw-sign, validate the signature, assemble the authenticator, submit, wait.
Any throw inside the `try` is re-raised wrapped as
"Failed to create move transaction: ..." (`createFailed`).  The second
component records which steps ran. -/
def createTransaction (env : MovementEnv) (args : CreateTransactionArguments) :
    Except PipelineError Nat × List PipelineStep :=
  if args.movementAddress.isEmpty then (.error .addressNotSet, [])
  else
    let data := mkTxData args
    let options := mkOptions args
    let buildArgs : BuildTransactionArguments :=
      { sender := args.movementAddress, data := data, options := options }
    let transaction := env.buildTransaction buildArgs
    let signingMessage := serializeTransaction transaction
    let rawSignature := env.rawSignTransaction signingMessage args.vaultAccountId
    match checkSignature rawSignature with
    | .error e => (.error (.createFailed e), [.build, .serialize, .sign, .checkSig])
    | .ok signatureBytes =>
      if args.movementPublicKey.isEmpty then
        (.error (.createFailed .publicKeyNotSet), [.build, .serialize, .sign, .checkSig])
      else
        let senderAuthenticator :=
          createSenderAuthenticator args.movementPublicKey signatureBytes
        let submittedTx := env.submitTransaction transaction senderAuthenticator
        let response := env.waitForTransaction submittedTx.hash
        (.ok response, [.build, .serialize, .sign, .checkSig, .mkAuth, .submit, .wait])

/-- C3: given a signature actually returned by the remote-sign step (which
itself rejects missing/empty `fullSig`), a byte length other than 64 makes the
pipeline fail with the invalid-signature-length error (wrapped by the
pipeline's catch) without ever reaching the submit step, while a 64-byte
signature is accepted and combined with the cached public key into the sender
authenticator passed to submission. -/
theorem checkSignature_pipeline_spec (env : MovementEnv)
    (args : CreateTransactionArguments) (signatureBytes : List Nat)
    (haddr : args.movementAddress.isEmpty = false)
    (hpk : args.movementPublicKey.isEmpty = false)
    (hsig : env.rawSignTransaction
        (serializeTransaction (env.buildTransaction
          { sender := args.movementAddress, data := mkTxData args,
            options := mkOptions args }))
        args.vaultAccountId = some ⟨some signatureBytes⟩)
    (hne : signatureBytes ≠ []) :
    (signatureBytes.length ≠ 64 →
      createTransaction env args
        = (.error (.createFailed .invalidSignatureLength),
            [.build, .serialize, .sign, .checkSig]) ∧
      PipelineStep.submit ∉ (createTransaction env args).2) ∧
    (signatureBytes.length = 64 →
      createTransaction env args
        = (.ok (env.waitForTransaction
              (env.submitTransaction
                (env.buildTransaction
                  { sender := args.movementAddress, data := mkTxData args,
                    options := mkOptions args })
                ⟨args.movementPublicKey, signatureBytes⟩).hash),
            [.build, .serialize, .sign, .checkSig, .mkAuth, .submit, .wait])) := by
  have hempty : signatureBytes.isEmpty = false := by
    cases signatureBytes with
    | nil => exact absurd rfl hne
    | cons a l => rfl
  constructor
  · intro hlen
    have heq : createTransaction env args
        = (.error (.createFailed .invalidSignatureLength),
            [.build, .serialize, .sign, .checkSig]) := by
      simp only [createTransaction, haddr, Bool.false_eq_true, if_false, hsig]
      simp [checkSignature, hempty, hlen]
    exact ⟨heq, by rw [heq]; decide⟩
  · intro hlen
    simp only [createTransaction, haddr, Bool.false_eq_true, if_false, hsig]
    simp [checkSignature, hempty, hlen, hpk, createSenderAuthenticator]

/-- A concrete environment whose collaborators return fixed values. -/
def constMovementEnv : MovementEnv :=
  { buildTransaction := fun _ => ⟨[1, 2, 3]⟩
    rawSignTransaction := fun _ _ => some ⟨some (List.replicate 64 1)⟩
    submitTransaction := fun _ _ => ⟨"0xhash"⟩
    waitForTransaction := fun _ => 0 }

def sampleTransferArgs : CreateTransactionArguments :=
  { movementAddress := "0xa"
    movementPublicKey := "0xpk"
    vaultAccountId := "7"
    recipientAddress := "0xb"
    amount := 100
    maxGasAmount := none
    gasUnitPrice := none
    expireTimestamp := none
    accountSequenceNumber := none
    tokenTransfer := none
    tokenAsset := none }

/-- Witness for C3 with a 64-byte signature on the concrete environment. -/
theorem checkSignature_pipeline_spec_witness :
    (sampleTransferArgs.movementAddress.isEmpty = false ∧
      sampleTransferArgs.movementPublicKey.isEmpty = false ∧
      constMovementEnv.rawSignTransaction
          (serializeTransaction (constMovementEnv.buildTransaction
            { sender := sampleTransferArgs.movementAddress,
              data := mkTxData sampleTransferArgs,
              options := mkOptions sampleTransferArgs }))
          sampleTransferArgs.vaultAccountId
        = some ⟨some (List.replicate 64 1)⟩ ∧
      List.replicate 64 (1 : Nat) ≠ [] ∧
      (List.replicate 64 (1 : Nat)).length = 64) ∧
    createTransaction constMovementEnv sampleTransferArgs
      = (.ok (constMovementEnv.waitForTransaction
            (constMovementEnv.submitTransaction
              (constMovementEnv.buildTransaction
                { sender := sampleTransferArgs.movementAddress,
                  data := mkTxData sampleTransferArgs,
                  options := mkOptions sampleTransferArgs })
              ⟨sampleTransferArgs.movementPublicKey, List.replicate 64 1⟩).hash),
          [.build, .serialize, .sign, .checkSig, .mkAuth, .submit, .wait]) :=
  ⟨⟨rfl, rfl, rfl, by decide, by decide⟩,
    (checkSignature_pipeline_spec constMovementEnv sampleTransferArgs
      (List.replicate 64 1) rfl rfl rfl (by decide)).2 (by decide)⟩

/-- The `CreateTransactionArguments` record assembled by
`MovementFireblocksSDK.createMoveTransaction`: neither `tokenTransfer` nor
`tokenAsset` is set. -/
def moveTransactionArgsOf (movementAddress movementPublicKey vaultAccountId
    recipientAddress : String) (amount : Nat)
    (maxGasAmount gasUnitPrice expireTimestamp accountSequenceNumber : Option Nat) :
    CreateTransactionArguments :=
  { movementAddress := movementAddress
    movementPublicKey := movementPublicKey
    vaultAccountId := vaultAccountId
    recipientAddress := recipientAddress
    amount := amount
    maxGasAmount := maxGasAmount
    gasUnitPrice := gasUnitPrice
    expireTimestamp := expireTimestamp
    accountSequenceNumber := accountSequenceNumber
    tokenTransfer := none
    tokenAsset := none }

/-- The record assembled by `MovementFireblocksSDK.createTokenTransaction`:
`tokenTransfer: true` and `tokenAsset: tokenType`. -/
def tokenTransactionArgsOf (movementAddress movementPublicKey vaultAccountId
    recipientAddress : String) (amount : Nat) (tokenType : String)
    (maxGasAmount gasUnitPrice expireTimestamp accountSequenceNumber : Option Nat) :
    CreateTransactionArguments :=
  { movementAddress := movementAddress
    movementPublicKey := movementPublicKey
    vaultAccountId := vaultAccountId
    recipientAddress := recipientAddress
    amount := amount
    maxGasAmount := maxGasAmount
    gasUnitPrice := gasUnitPrice
    expireTimestamp := expireTimestamp
    accountSequenceNumber := accountSequenceNumber
    tokenTransfer := some true
    tokenAsset := some tokenType }

/-- C6: a MOVE-transfer intent yields the fixed MOVE selector with empty type
arguments and `[recipient, amount]`; a token-transfer intent yields the fixed
token selector with its fixed type arguments and `[assetType, recipient,
amount]`; every argument record produces exactly one of the two shapes and the
two selectors differ, so the shapes never mix. -/
theorem mkTxData_spec (addr pk vid recipient tokenType : String) (amount : Nat)
    (g1 g2 g3 g4 : Option Nat) :
    mkTxData (moveTransactionArgsOf addr pk vid recipient amount g1 g2 g3 g4)
      = { function := "0x1::aptos_account::transfer"
          typeArguments := []
          functionArguments := [.str recipient, .num amount] } ∧
    mkTxData (tokenTransactionArgsOf addr pk vid recipient amount tokenType g1 g2 g3 g4)
      = { function := "0x1::primary_fungible_store::transfer"
          typeArguments := ["0x1::fungible_asset::Metadata"]
          functionArguments := [.str tokenType, .str recipient, .num amount] } ∧
    (∀ args : CreateTransactionArguments,
      mkTxData args
          = { function := createMoveTransactionConstants.function
              typeArguments := []
              functionArguments := [.str args.recipientAddress, .num args.amount] } ∨
      mkTxData args
          = { function := createTokenTransactionConstants.function
              typeArguments := createTokenTransactionConstants.typeArguments
              functionArguments := [optStrArg args.tokenAsset,
                .str args.recipientAddress, .num args.amount] }) ∧
    createMoveTransactionConstants.function ≠ createTokenTransactionConstants.function := by
  refine ⟨rfl, rfl, ?_, by decide⟩
  intro args
  rcases h : jsTruthy args.tokenTransfer with _ | _
  · left
    simp [mkTxData, h]
  · right
    simp [mkTxData, h]

/-- C7: the gas-options object is `undefined` exactly when all four overrides
are unset; otherwise it carries exactly the overrides that were set. -/
theorem mkOptions_spec (args : CreateTransactionArguments) :
    (args.maxGasAmount = none ∧ args.gasUnitPrice = none ∧
        args.expireTimestamp = none ∧ args.accountSequenceNumber = none →
      mkOptions args = none) ∧
    (¬(args.maxGasAmount = none ∧ args.gasUnitPrice = none ∧
        args.expireTimestamp = none ∧ args.accountSequenceNumber = none) →
      mkOptions args = some
        { maxGasAmount := args.maxGasAmount
          gasUnitPrice := args.gasUnitPrice
          expireTimestamp := args.expireTimestamp
          accountSequenceNumber := args.accountSequenceNumber }) := by
  constructor
  · intro h
    simp only [mkOptions]
    rw [if_pos h]
  · intro h
    simp only [mkOptions]
    rw [if_neg h]

def sampleGasArgs : CreateTransactionArguments :=
  { movementAddress := "0xa"
    movementPublicKey := "0xpk"
    vaultAccountId := "7"
    recipientAddress := "0xb"
    amount := 100
    maxGasAmount := some 5
    gasUnitPrice := none
    expireTimestamp := none
    accountSequenceNumber := none
    tokenTransfer := none
    tokenAsset := none }

/-- Witness for C7: with only `maxGasAmount` set the options object carries
exactly that field. -/
theorem mkOptions_spec_witness :
    (¬(sampleGasArgs.maxGasAmount = none ∧ sampleGasArgs.gasUnitPrice = none ∧
        sampleGasArgs.expireTimestamp = none ∧
        sampleGasArgs.accountSequenceNumber = none)) ∧
    mkOptions sampleGasArgs = some
      { maxGasAmount := some 5
        gasUnitPrice := none
        expireTimestamp := none
        accountSequenceNumber := none } :=
  ⟨by decide, (mkOptions_spec sampleGasArgs).2 (by decide)⟩

/-! ## Account-level SDK (`src/MovementFireblocksSDK.ts`)

The instance state carries the cached address, public key, vault account id
and the transaction-history cache (`chachedTransactions`, spelled as in the
source).  Remote collaborator results are passed in as `Except` oracles. -/

structure GetTransactionHistoryResponse where
  transaction_version : Nat
  transaction_details : Option Nat
  error : Option String
deriving DecidableEq, Repr

inductive SdkError where
  | addressNotSet                       -- "Movement address is not set."
  | credentialsNotSet                   -- "Address, Public Key or Vault ID are not set"
  | getBalanceFailed (cause : String)
  | getBalancesFailed (cause : String)
  | getHistoryFailed (cause : String)
  | remote (cause : String)             -- unwrapped propagation
  | createTransactionFailed (cause : String)
deriving DecidableEq, Repr

structure SdkState where
  movementAddress : Option String
  movementPublicKey : Option String
  vaultAccountId : String
  chachedTransactions : List GetTransactionHistoryResponse
deriving DecidableEq, Repr

/-- JS falsiness of a `string | undefined`: `undefined` and `""`. -/
def strFalsy : Option String → Bool
  | none => true
  | some s => s.isEmpty

/-- The state right after the private constructor ran: the history cache is
initialized to `[]`; `create` then fills address and public key from the
Fireblocks lookups (passed here as parameters). -/
def createSdkState (vaultAccountId : String)
    (movementAddress movementPublicKey : Option String) : SdkState :=
  { movementAddress := movementAddress
    movementPublicKey := movementPublicKey
    vaultAccountId := vaultAccountId
    chachedTransactions := [] }

/-- The `getMovementAccountAddress`: `this.movementAddress || ""`. -/
def getMovementAccountAddress (st : SdkState) : String :=
  st.movementAddress.getD ("")

/-- The `getMovementAccountPublicKey`: `this.movementPublicKey || ""`. -/
def getMovementAccountPublicKey (st : SdkState) : String :=
  st.movementPublicKey.getD ("")

/-- The `getBalance`: address guard, then the Movement call with its failure
wrapped as "Failed to get balance: ...". -/
def getBalance (st : SdkState) (remoteResult : Except String Nat) :
    Except SdkError Nat :=
  if strFalsy st.movementAddress then .error .addressNotSet
  else
    match remoteResult with
    | .ok v => .ok v
    | .error e => .error (.getBalanceFailed e)

/-- The `getBalances`: same shape as `getBalance`. -/
def getBalances (st : SdkState) (remoteResult : Except String Nat) :
    Except SdkError Nat :=
  if strFalsy st.movementAddress then .error .addressNotSet
  else
    match remoteResult with
    | .ok v => .ok v
    | .error e => .error (.getBalancesFailed e)

/-- The `getAccountCoinsData`: address guard, then the Movement call with no
try/catch (failures propagate unwrapped). -/
def getAccountCoinsData (st : SdkState) (remoteResult : Except String Nat) :
    Except SdkError Nat :=
  if strFalsy st.movementAddress then .error .addressNotSet
  else
    match remoteResult with
    | .ok v => .ok v
    | .error e => .error (.remote e)

/-- The `getTransactionsHistory(getCachedTransactions, limit, offset)`: the cache
flag short-circuits before any other check; a fresh fetch needs the address
and, on success, replaces the cache with the per-field copy of the result.
The result triple is (returned-or-thrown value, new state, remote calls
made). -/
def getTransactionsHistory (st : SdkState)
    (remoteResult : Except String (List GetTransactionHistoryResponse))
    (getCachedTransactions : Bool) :
    Except SdkError (List GetTransactionHistoryResponse) × SdkState × Nat :=
  if getCachedTransactions then (.ok st.chachedTransactions, st, 0)
  else if strFalsy st.movementAddress then (.error .addressNotSet, st, 0)
  else
    match remoteResult with
    | .ok txs =>
      (.ok txs,
        { st with chachedTransactions := txs.map (fun tx =>
            { transaction_version := tx.transaction_version
              transaction_details := tx.transaction_details
              error := tx.error }) },
        1)
    | .error e => (.error (.getHistoryFailed e), st, 1)

/-- The `createMoveTransaction`: the three-way credentials guard, then the
pipeline call with its failure wrapped. -/
def createMoveTransaction (st : SdkState) (remoteResult : Except String Nat) :
    Except SdkError Nat :=
  if strFalsy st.movementAddress || strFalsy st.movementPublicKey
      || st.vaultAccountId.isEmpty then .error .credentialsNotSet
  else
    match remoteResult with
    | .ok v => .ok v
    | .error e => .error (.createTransactionFailed e)

/-- The `createTokenTransaction`: same guard, with the token type threaded into
the pipeline arguments. -/
def createTokenTransaction (st : SdkState) (tokenType : String)
    (remoteResult : Except String Nat) : Except SdkError Nat :=
  if strFalsy st.movementAddress || strFalsy st.movementPublicKey
      || st.vaultAccountId.isEmpty then .error .credentialsNotSet
  else
    match remoteResult with
    | .ok v => .ok v
    | .error e => .error (.createTransactionFailed e)

/-- C8: before any successful fetch, a cached read returns the empty list with
zero remote calls; a successful fresh fetch stores exactly its result in the
cache, and a later cached read returns exactly that result with zero remote
calls; a failed fresh fetch leaves the cache (indeed the whole state)
unchanged. -/
theorem getTransactionsHistory_cache_spec (vaultAccountId : String)
    (addr pk : Option String) (st : SdkState)
    (txs : List GetTransactionHistoryResponse) (e : String)
    (anyFetch : Except String (List GetTransactionHistoryResponse))
    (haddr : strFalsy st.movementAddress = false) :
    (∀ f, getTransactionsHistory (createSdkState vaultAccountId addr pk) f true
        = (.ok [], createSdkState vaultAccountId addr pk, 0)) ∧
    (getTransactionsHistory st (.ok txs) false
        = (.ok txs, { st with chachedTransactions := txs }, 1) ∧
      getTransactionsHistory { st with chachedTransactions := txs } anyFetch true
        = (.ok txs, { st with chachedTransactions := txs }, 0)) ∧
    getTransactionsHistory st (.error e) false
      = (.error (.getHistoryFailed e), st, 1) := by
  have hmap : txs.map (fun tx : GetTransactionHistoryResponse =>
      ({ transaction_version := tx.transaction_version
         transaction_details := tx.transaction_details
         error := tx.error } : GetTransactionHistoryResponse)) = txs := by
    induction txs with
    | nil => rfl
    | cons tx t ih => simp [ih]
  refine ⟨fun f => rfl, ⟨?_, rfl⟩, ?_⟩
  · simp [getTransactionsHistory, haddr, hmap]
  · simp [getTransactionsHistory, haddr]

/-- Witness for C8 at a concrete state and result list. -/
theorem getTransactionsHistory_cache_spec_witness :
    strFalsy (SdkState.mk (some ("0xa")) (some ("0xpk")) "7" []).movementAddress = false ∧
    (getTransactionsHistory (SdkState.mk (some ("0xa")) (some ("0xpk")) "7" [])
        (.ok [GetTransactionHistoryResponse.mk 3 none none]) false
      = (.ok [GetTransactionHistoryResponse.mk 3 none none],
          SdkState.mk (some ("0xa")) (some ("0xpk")) "7"
            [GetTransactionHistoryResponse.mk 3 none none], 1) ∧
      getTransactionsHistory
          (SdkState.mk (some ("0xa")) (some ("0xpk")) "7"
            [GetTransactionHistoryResponse.mk 3 none none])
          (.error ("boom")) true
        = (.ok [GetTransactionHistoryResponse.mk 3 none none],
            SdkState.mk (some ("0xa")) (some ("0xpk")) "7"
              [GetTransactionHistoryResponse.mk 3 none none], 0)) :=
  ⟨by decide,
    (getTransactionsHistory_cache_spec ("7") (some ("0xa")) (some ("0xpk"))
      (SdkState.mk (some ("0xa")) (some ("0xpk")) "7" [])
      [GetTransactionHistoryResponse.mk 3 none none] ("boom") (.error ("boom"))
      (by decide)).2.1⟩

/-- C9 (amended): with the cached address missing, the balance, balances,
coins-data, fresh-history and transfer methods fail with the
address-not-initialized error, but the `getMovementAccountAddress` and
`getMovementAccountPublicKey` accessors return the empty string — a default —
instead of failing, and a cached-history read returns the cache without any
address check. -/
theorem missingAddress_spec (st : SdkState) (rb rbs rc rm rt : Except String Nat)
    (f : Except String (List GetTransactionHistoryResponse)) (tokenType : String)
    (h : st.movementAddress = none) :
    getMovementAccountAddress st = "" ∧
    getMovementAccountPublicKey { st with movementPublicKey := none } = "" ∧
    getBalance st rb = .error .addressNotSet ∧
    getBalances st rbs = .error .addressNotSet ∧
    getAccountCoinsData st rc = .error .addressNotSet ∧
    getTransactionsHistory st f false = (.error .addressNotSet, st, 0) ∧
    getTransactionsHistory st f true = (.ok st.chachedTransactions, st, 0) ∧
    createMoveTransaction st rm = .error .credentialsNotSet ∧
    createTokenTransaction st tokenType rt = .error .credentialsNotSet := by
  have hf : strFalsy st.movementAddress = true := by rw [h]; rfl
  refine ⟨?_, rfl, ?_, ?_, ?_, ?_, rfl, ?_, ?_⟩
  · rw [getMovementAccountAddress, h]; rfl
  · simp [getBalance, hf]
  · simp [getBalances, hf]
  · simp [getAccountCoinsData, hf]
  · simp [getTransactionsHistory, hf]
  · simp [createMoveTransaction, hf]
  · simp [createTokenTransaction, hf]

/-- C9 counterexample to the claim as stated: with no cached address, the two
accessors return the empty-string default — a normal return value, not an
`AddressNotInitializedError` — and a cached-history read succeeds as well. -/
theorem missingAddress_counterexample :
    getMovementAccountAddress (SdkState.mk none none ("1") []) = "" ∧
    getMovementAccountPublicKey (SdkState.mk none none ("1") []) = "" ∧
    getTransactionsHistory (SdkState.mk none none ("1") []) (.error ("down")) true
      = (.ok [], SdkState.mk none none ("1") [], 0) :=
  ⟨rfl, rfl, rfl⟩

/-- Witness for C9 (amended) at a concrete uninitialized state. -/
theorem missingAddress_spec_witness :
    (SdkState.mk none none ("1") []).movementAddress = none ∧
    (getBalance (SdkState.mk none none ("1") []) (.ok 5) = .error .addressNotSet ∧
      createMoveTransaction (SdkState.mk none none ("1") []) (.ok 5)
        = .error .credentialsNotSet) :=
  ⟨rfl,
    ⟨(missingAddress_spec (SdkState.mk none none ("1") []) (.ok 5) (.ok 5) (.ok 5)
        (.ok 5) (.ok 5) (.ok []) ("tok") rfl).2.2.1,
      (missingAddress_spec (SdkState.mk none none ("1") []) (.ok 5) (.ok 5) (.ok 5)
        (.ok 5) (.ok 5) (.ok []) ("tok") rfl).2.2.2.2.2.2.2.1⟩⟩
